import Mathlib

/-!
Verification of the ride-sharing simulation core (dispatcher matching policy,
driver/rider state machines, and the five event kinds) against its source.

The Python source is embedded shallowly:

* Python objects (Rider, Driver) live on an explicit heap; object references
  are natural numbers, so Python identity equality is index equality, while
  Driver value equality compares identifiers (Driver defines an identifier
  based eq operation; Rider does not, so riders compare by identity).
* Mutation is explicit state passing over a `Sim` record holding the two
  heaps, the dispatcher's waitlist and idle roster, and the observer's log.
* Integer division on non-negative Python ints is Nat division; the builtin
  round of a ratio of non-negative ints is `pyRound` (round half to even).
  Python evaluates the ratio through floating point; it is modelled here as
  the exact rational, which coincides for all subastronomical coordinates.
* A Python method that can fall off the end without returning a value has
  result type `Option`; a method returning a list returns `some` a list.
-/

/-- Rider status constants from the rider module (WAITING, CANCELLED,
SATISFIED). -/
inductive Status where
  | waiting
  | cancelled
  | satisfied
deriving DecidableEq

/-- Positions: the Location class from the location module, two integer
coordinates. -/
structure Location where
  row : Int
  column : Int
deriving DecidableEq

/-- The manhattan_distance function from the location module: sum of the
absolute coordinate differences (a non-negative integer, so a Nat). -/
def manhattan_distance (origin destination : Location) : Nat :=
  (destination.row - origin.row).natAbs + (destination.column - origin.column).natAbs

/-- Denotation of the Python builtin round applied to the ratio n / d of two
non-negative integers: round half to even. -/
def pyRound (n d : Nat) : Nat :=
  if 2 * (n % d) < d then n / d
  else if d < 2 * (n % d) then n / d + 1
  else if n / d % 2 = 0 then n / d else n / d + 1

/-- The Rider class: identity string, origin, destination, patience, and the
mutable status field (initialised to WAITING by the constructor). -/
structure Rider where
  id : String
  origin : Location
  destination : Location
  patience : Nat
  status : Status
deriving DecidableEq

/-- The Driver class: identifier, current location, speed, the is_idle flag
and optional destination set by the constructor.  The `idle` field models the
distinct attribute that start_drive creates by assigning to self.idle (a slip
for self.is_idle); it does not exist (`none`) until start_drive runs. -/
structure Driver where
  identifier : String
  location : Location
  speed : Nat
  is_idle : Bool
  destination : Option Location
  idle : Option Bool
deriving DecidableEq

/-- Observer subject kinds (RIDER / DRIVER constants of the monitor
module). -/
inductive PCat where
  | rider
  | driver
deriving DecidableEq

/-- Observer action kinds (REQUEST / CANCEL / PICKUP / DROPOFF constants of
the monitor module). -/
inductive PAct where
  | request
  | cancel
  | pickup
  | dropoff
deriving DecidableEq

/-- Modelled from the spec: the monitor module is not part of the given
sources; per the observer notification contract, notify(timestamp, category,
action, identifier, position) records exactly these five fields, and the
observer keeps the notifications in emission order. -/
structure Notif where
  timestamp : Nat
  category : PCat
  action : PAct
  ident : String
  location : Location
deriving DecidableEq

/-- The whole mutable state of a simulation: the rider heap and driver heap
(indexed by object identity), the dispatcher's rider waitlist and idle-driver
roster (lists of references, as in the source), and the observer's log. -/
structure Sim where
  riders : Nat → Rider
  drivers : Nat → Driver
  waitlist : List Nat
  roster : List Nat
  monitor : List Notif

/-- Assignment to rider.status for the rider object at reference r. -/
def setRiderStatus (s : Sim) (r : Nat) (st : Status) : Sim :=
  { s with riders := fun j => if j = r then { s.riders j with status := st } else s.riders j }

/-- Assignment to driver.destination for the driver object at reference d. -/
def setDriverDest (s : Sim) (d : Nat) (dest : Option Location) : Sim :=
  { s with drivers := fun j => if j = d then { s.drivers j with destination := dest } else s.drivers j }

/-- Assignment to driver.location for the driver object at reference d. -/
def setDriverLoc (s : Sim) (d : Nat) (loc : Location) : Sim :=
  { s with drivers := fun j => if j = d then { s.drivers j with location := loc } else s.drivers j }

/-- The status of the rider object at reference r. -/
def statusOf (s : Sim) (r : Nat) : Status :=
  (s.riders r).status

/-- Driver.get_travel_time: round of the ratio of the inline sum of absolute
coordinate differences between the destination and the driver's current
location, over the driver's speed. -/
def get_travel_time (dr : Driver) (destination : Location) : Nat :=
  pyRound ((destination.row - dr.location.row).natAbs
            + (destination.column - dr.location.column).natAbs) dr.speed

/-- Driver.start_drive: assigns False to the (fresh) attribute idle, leaving
is_idle and destination untouched, and returns get_travel_time(location). -/
def start_drive (s : Sim) (d : Nat) (location : Location) : Nat × Sim :=
  (get_travel_time (s.drivers d) location,
   { s with drivers := fun j => if j = d then { s.drivers j with idle := some false } else s.drivers j })

/-- Driver.end_drive: sets is_idle back to True (and touches nothing else). -/
def end_drive (s : Sim) (d : Nat) : Sim :=
  { s with drivers := fun j => if j = d then { s.drivers j with is_idle := true } else s.drivers j }

/-- Driver.end_ride: sets is_idle back to True (and touches nothing else). -/
def end_ride (s : Sim) (d : Nat) : Sim :=
  { s with drivers := fun j => if j = d then { s.drivers j with is_idle := true } else s.drivers j }

/-- Driver.start_ride: marks the rider picked up (status SATISFIED) and
returns get_travel_time(rider.destination). -/
def start_ride (s : Sim) (d r : Nat) : Nat × Sim :=
  (get_travel_time (s.drivers d) ((s.riders r).destination),
   setRiderStatus s r .satisfied)

/-- Python dict assignment d[k] = v on an association list kept in key
insertion order: overwrite the value if the key is present, else append. -/
def dictSet : List (Nat × Nat) → Nat → Nat → List (Nat × Nat)
  | [], k, v => [(k, v)]
  | (k', v') :: rest, k, v =>
      if k' = k then (k, v) :: rest else (k', v') :: dictSet rest k v

/-- Python dict lookup d[k] (0 when the key is absent; lookups in the source
are always on present keys). -/
def dictGet (m : List (Nat × Nat)) (k : Nat) : Nat :=
  match m.find? (fun p => p.1 == k) with
  | some p => p.2
  | none => 0

/-- Python min over a list of naturals (0 on the empty list; the source only
takes min of a non-empty dict). -/
def listMin : List Nat → Nat
  | [] => 0
  | k :: ks => ks.foldl min k

/-- Python min over the keys of a dict. -/
def dictMin (m : List (Nat × Nat)) : Nat :=
  listMin (m.map Prod.fst)

/-- The Manhattan distance from the driver at reference j to the origin of
the rider at reference r, as computed inside Dispatcher.request_driver. -/
def distToOrigin (s : Sim) (r j : Nat) : Nat :=
  manhattan_distance ((s.drivers j).location) ((s.riders r).origin)

/-- The dictionary that Dispatcher.request_driver builds over the roster:
each driver is stored under its distance-to-rider-origin key, so for equal
distances a later driver overwrites an earlier one. -/
def buildDict (s : Sim) (r : Nat) (roster : List Nat) : List (Nat × Nat) :=
  roster.foldl (fun m j => dictSet m (distToOrigin s r j) j) []

/-- Python list.remove(x): drop the first element equal to x (the matching
element is found through the predicate, here driver eq, i.e. identifier
equality). -/
def removeFirst (p : Nat → Bool) : List Nat → List Nat
  | [] => []
  | x :: xs => if p x then xs else x :: removeFirst p xs

/-- Dispatcher.request_driver: with an empty roster, append the rider to the
waitlist and return None; otherwise build the distance-keyed dict over the
roster, take the driver stored under the minimum key, remove it from the
roster (list.remove, driver equality is identifier equality) and return
it. -/
def request_driver (s : Sim) (r : Nat) : Option Nat × Sim :=
  match s.roster with
  | [] => (none, { s with waitlist := s.waitlist ++ [r] })
  | _ :: _ =>
    let m := buildDict s r s.roster
    let c := dictGet m (dictMin m)
    (some c,
     { s with roster :=
        removeFirst (fun j => (s.drivers j).identifier == (s.drivers c).identifier) s.roster })

/-- Dispatcher.request_rider: with an empty waitlist, append the driver to
the roster unless a driver with equal identifier is already on it, and
return None (also None, roster untouched, when already present); with a
non-empty waitlist, pop and return its front rider. -/
def request_rider (s : Sim) (d : Nat) : Option Nat × Sim :=
  match s.waitlist with
  | [] =>
    if s.roster.any (fun j => (s.drivers j).identifier == (s.drivers d).identifier)
    then (none, s)
    else (none, { s with roster := s.roster ++ [d] })
  | r :: rest => (some r, { s with waitlist := rest })

/-- The loop body of Dispatcher.cancel_ride: Python iterates the waitlist by
index while list.remove mutates it in place, so a removal shifts the not yet
visited elements one slot to the left.  Rider equality is object identity,
i.e. reference equality. -/
def cancel_ride_loop (wl : List Nat) (r : Nat) (i : Nat) : List Nat :=
  if h : i < wl.length then
    if wl.get ⟨i, h⟩ = r then cancel_ride_loop (wl.erase r) r (i + 1)
    else cancel_ride_loop wl r (i + 1)
  else wl
termination_by wl.length - i
decreasing_by
  · have hle : (wl.erase r).length ≤ wl.length := wl.length_erase_le r
    omega
  · omega

/-- Dispatcher.cancel_ride: run the removal loop over the waitlist. -/
def cancel_ride (s : Sim) (r : Nat) : Sim :=
  { s with waitlist := cancel_ride_loop s.waitlist r 0 }

/-- The five concrete event kinds of the event module.  Payload objects are
heap references. -/
inductive Ev where
  | riderRequest (timestamp : Nat) (rider : Nat)
  | driverRequest (timestamp : Nat) (driver : Nat)
  | pickup (timestamp : Nat) (rider driver : Nat)
  | dropoff (timestamp : Nat) (rider driver : Nat)
  | cancellation (timestamp : Nat) (rider : Nat)
deriving DecidableEq

/-- Modelled from the spec: the monitor module is not in the given sources;
per the notify contract, a notification is appended to the observer's
record. -/
def notify (s : Sim) (n : Notif) : Sim :=
  { s with monitor := s.monitor ++ [n] }

/-- The Pickup constructor: besides storing its payload it assigns the
rider's origin to the driver's location ("the driver has arrived"). -/
def mkPickup (s : Sim) (t r d : Nat) : Ev × Sim :=
  (.pickup t r d, setDriverLoc s d ((s.riders r).origin))

/-- The Dropoff constructor: besides storing its payload it assigns the
rider's destination to the driver's location. -/
def mkDropoff (s : Sim) (t r d : Nat) : Ev × Sim :=
  (.dropoff t r d, setDriverLoc s d ((s.riders r).destination))

/-- The tail of RiderRequest.do once the dispatcher call has returned: when
a driver was matched, start_drive to the rider's origin and construct a
Pickup at timestamp + travel_time; in every case a Cancellation at
timestamp + rider.patience closes the returned list. -/
def riderRequest_after (t r : Nat) : Option Nat × Sim → Option (List Ev) × Sim
  | (none, s2) =>
      (some [.cancellation (t + ((s2.riders r)).patience) r], s2)
  | (some d, s2) =>
      let sd := start_drive s2 d (((s2.riders r)).origin)
      let pk := mkPickup sd.2 (t + sd.1) r d
      (some [pk.1, .cancellation (t + (((pk.2).riders r)).patience) r], pk.2)

/-- RiderRequest.do: notify the observer of the rider request, ask the
dispatcher for a driver, and continue with riderRequest_after. -/
def riderRequest_do (s : Sim) (t r : Nat) : Option (List Ev) × Sim :=
  riderRequest_after t r
    (request_driver (notify s ⟨t, .rider, .request, (s.riders r).id, (s.riders r).origin⟩) r)

/-- The tail of DriverRequest.do once the dispatcher call has returned: when
a rider was matched, start_drive to the rider's origin and return a Pickup
at timestamp + abs(travel_time) (travel times are non-negative here, so abs
is the identity); otherwise return the empty list. -/
def driverRequest_after (t d : Nat) : Option Nat × Sim → Option (List Ev) × Sim
  | (none, s2) => (some [], s2)
  | (some r, s2) =>
      let sd := start_drive s2 d (((s2.riders r)).origin)
      let pk := mkPickup sd.2 (t + sd.1) r d
      (some [pk.1], pk.2)

/-- DriverRequest.do: notify the observer of the driver request, ask the
dispatcher for a rider, and continue with driverRequest_after. -/
def driverRequest_do (s : Sim) (t d : Nat) : Option (List Ev) × Sim :=
  driverRequest_after t d
    (request_rider (notify s ⟨t, .driver, .request, (s.drivers d).identifier, (s.drivers d).location⟩) d)

/-- The branch of Pickup.do on rider.status.  CANCELLED: return a
DriverRequest at the same timestamp and clear the driver's destination.
WAITING: set the driver's destination to the rider's destination,
start_drive to the rider's origin, construct a Dropoff at timestamp +
abs(travel_time) + floor division of the origin-to-destination Manhattan
distance by the driver's speed, and finally mark the rider SATISFIED.  Any
other status: return the empty list. -/
def pickup_branch (t r d : Nat) (s2 : Sim) : Status → Option (List Ev) × Sim
  | .cancelled =>
      (some [.driverRequest t d], setDriverDest s2 d none)
  | .waiting =>
      let s3 := setDriverDest s2 d (some ((s2.riders r).destination))
      let sd := start_drive s3 d (((s3.riders r)).origin)
      let dropT := manhattan_distance (((sd.2).riders r)).origin (((sd.2).riders r)).destination
                    / (((sd.2).drivers d)).speed
      let dp := mkDropoff sd.2 (t + sd.1 + dropT) r d
      (some [dp.1], setRiderStatus dp.2 r .satisfied)
  | .satisfied => (some [], s2)

/-- Pickup.do: notify the observer of the rider pickup and the driver
pickup, then branch on rider.status. -/
def pickup_do (s : Sim) (t r d : Nat) : Option (List Ev) × Sim :=
  let s1 := notify s ⟨t, .rider, .pickup, (s.riders r).id, (s.riders r).origin⟩
  let s2 := notify s1 ⟨t, .driver, .pickup, ((s1.drivers d)).identifier, ((s1.drivers d)).location⟩
  pickup_branch t r d s2 (((s2.riders r)).status)

/-- Dropoff.do: notify the observer of the driver dropoff, mark the rider
SATISFIED, return a DriverRequest at the same timestamp, and clear the
driver's destination. -/
def dropoff_do (s : Sim) (t r d : Nat) : Option (List Ev) × Sim :=
  let s1 := notify s ⟨t, .driver, .dropoff, (s.drivers d).identifier, (s.drivers d).location⟩
  let s2 := setRiderStatus s1 r .satisfied
  (some [.driverRequest t d], setDriverDest s2 d none)

/-- Cancellation.do: when rider.status is not SATISFIED, set it to
CANCELLED, notify the observer of the rider cancel, and cancel_ride on the
dispatcher.  The method has no return statement, so it returns None (not a
list) on every path. -/
def cancellation_do (s : Sim) (t r : Nat) : Option (List Ev) × Sim :=
  if ((s.riders r)).status ≠ .satisfied then
    let s1 := setRiderStatus s r .cancelled
    let s2 := notify s1 ⟨t, .rider, .cancel, ((s1.riders r)).id, ((s1.riders r)).origin⟩
    (none, cancel_ride s2 r)
  else (none, s)

/-- Event dispatch: each event kind's do operation. -/
def doEv (s : Sim) : Ev → Option (List Ev) × Sim
  | .riderRequest t r => riderRequest_do s t r
  | .driverRequest t d => driverRequest_do s t d
  | .pickup t r d => pickup_do s t r d
  | .dropoff t r d => dropoff_do s t r d
  | .cancellation t r => cancellation_do s t r

/-- The successor events an execution hands back to the scheduler.
Modelled from the spec: the scheduler (simulation module) is not in the
given sources; per the spec it pushes every returned successor event, and a
do operation that returned no list contributes none. -/
def succList (p : Option (List Ev) × Sim) : List Ev :=
  p.1.getD []

/-- A scheduler configuration: the pending event queue plus the shared
simulation state. -/
structure Config where
  queue : List Ev
  sim : Sim

/-- Modelled from the spec: one scheduler round, executing the queued event
at position i: the event is removed from the queue, its do operation runs on
the shared state, and its successor events are enqueued.  The position is
arbitrary here, which subsumes the scheduler's earliest-timestamp choice. -/
def stepAt (c : Config) (i : Fin c.queue.length) : Config :=
  let res := doEv c.sim (c.queue.get i)
  ⟨(c.queue.eraseIdx i.val) ++ succList res, res.2⟩

/-- One scheduler round, as a relation. -/
def Step (c c' : Config) : Prop :=
  ∃ i, c' = stepAt c i

/-- Whether an event is one of the two request kinds that an initial event
list (create_event_list) consists of. -/
def Ev.isRequest : Ev → Bool
  | .riderRequest _ _ => true
  | .driverRequest _ _ => true
  | _ => false

/-- An initial configuration: the queue holds only RiderRequest and
DriverRequest events, as produced by create_event_list. -/
def InitOk (c : Config) : Prop :=
  ∀ e ∈ c.queue, e.isRequest = true

/-- A configuration reachable from another by scheduler rounds. -/
def Reachable (c0 c : Config) : Prop :=
  Relation.ReflTransGen Step c0 c

/-- The queue invariant behind rider-status monotonicity: every Dropoff
still pending in the queue is for a rider already SATISFIED (Pickup marks
the rider SATISFIED in the very round that creates the Dropoff). -/
def DropInv (c : Config) : Prop :=
  ∀ t r d, Ev.dropoff t r d ∈ c.queue → statusOf c.sim r = .satisfied

/-- A generic waiting rider for concrete instances. -/
def anyRider : Rider := ⟨"r0", ⟨0, 0⟩, ⟨1, 1⟩, 1, .waiting⟩

/-- A generic idle driver for concrete instances. -/
def anyDriver : Driver := ⟨"d0", ⟨2, 2⟩, 1, true, none, none⟩

/-- The driver of the driver module's doctests: king1 at (1, 1) with
speed 1. -/
def king1 : Driver := ⟨"king1", ⟨1, 1⟩, 1, true, none, none⟩

/-- Concrete rider at origin (0, 0) for the tie-break instance. -/
def c1Rider : Rider := ⟨"R", ⟨0, 0⟩, ⟨5, 5⟩, 10, .waiting⟩

/-- First-inserted driver, at Manhattan distance 1 from (0, 0). -/
def c1DriverA : Driver := ⟨"A", ⟨0, 1⟩, 1, true, none, none⟩

/-- Second-inserted driver, also at Manhattan distance 1 from (0, 0). -/
def c1DriverB : Driver := ⟨"B", ⟨1, 0⟩, 1, true, none, none⟩

/-- A dispatcher state whose roster holds two drivers at equal distance from
the requesting rider's origin. -/
def c1Sim : Sim :=
  ⟨fun _ => c1Rider, fun j => if j = 0 then c1DriverA else c1DriverB, [], [0, 1], []⟩

/-- A waiting rider (reference 0) for the monotonicity instance. -/
def c2RiderW : Rider := ⟨"w", ⟨0, 0⟩, ⟨0, 1⟩, 5, .waiting⟩

/-- An already satisfied rider (reference 1) for the monotonicity
instance. -/
def c2RiderS : Rider := ⟨"s", ⟨0, 0⟩, ⟨0, 1⟩, 5, .satisfied⟩

/-- State for the monotonicity instance. -/
def c2Sim : Sim :=
  ⟨fun i => if i = 1 then c2RiderS else c2RiderW, fun _ => anyDriver, [], [], []⟩

/-- An initial configuration holding one RiderRequest. -/
def c2Cfg : Config := ⟨[.riderRequest 0 0], c2Sim⟩

/-- A rider already CANCELLED when its Pickup fires (no-show). -/
def c3RiderC : Rider := ⟨"rc", ⟨0, 3⟩, ⟨0, 5⟩, 100, .cancelled⟩

/-- A rider still WAITING when its Pickup fires. -/
def c3RiderW : Rider := ⟨"rw", ⟨0, 3⟩, ⟨0, 5⟩, 100, .waiting⟩

/-- The driver serving the Pickup instances, already at the rider origin
(0, 3), speed 1. -/
def c3Driver : Driver := ⟨"D", ⟨0, 3⟩, 1, true, none, none⟩

/-- Pickup instance state, rider cancelled. -/
def c3SimC : Sim := ⟨fun _ => c3RiderC, fun _ => c3Driver, [], [], []⟩

/-- Pickup instance state, rider waiting. -/
def c3SimW : Sim := ⟨fun _ => c3RiderW, fun _ => c3Driver, [], [], []⟩

/-- The rider of the spec's request scenario: origin (0, 3), destination
(0, 5), patience 5. -/
def c4Rider : Rider := ⟨"R", ⟨0, 3⟩, ⟨0, 5⟩, 5, .waiting⟩

/-- The driver of the spec's request scenario: at (0, 0), speed 1. -/
def c4Driver : Driver := ⟨"D", ⟨0, 0⟩, 1, true, none, none⟩

/-- RiderRequest instance with an empty idle roster. -/
def c4SimA : Sim := ⟨fun _ => c4Rider, fun _ => c4Driver, [], [], []⟩

/-- RiderRequest instance with one idle driver. -/
def c4SimB : Sim := ⟨fun _ => c4Rider, fun _ => c4Driver, [], [0], []⟩

/-- A waiting rider on the waitlist for the Cancellation instance. -/
def c5RiderW : Rider := ⟨"W", ⟨1, 1⟩, ⟨2, 2⟩, 3, .waiting⟩

/-- An already satisfied rider for the Cancellation instance. -/
def c5RiderS : Rider := ⟨"S", ⟨1, 1⟩, ⟨2, 2⟩, 3, .satisfied⟩

/-- Cancellation instance state, rider waiting and on the waitlist. -/
def c5SimW : Sim := ⟨fun _ => c5RiderW, fun _ => anyDriver, [0], [], []⟩

/-- Cancellation instance state, rider satisfied. -/
def c5SimS : Sim := ⟨fun _ => c5RiderS, fun _ => anyDriver, [0], [], []⟩

/-- A driver with identifier X at reference 0. -/
def driverX : Driver := ⟨"X", ⟨0, 0⟩, 2, true, none, none⟩

/-- A driver with identifier Y at other references. -/
def driverY : Driver := ⟨"Y", ⟨3, 3⟩, 2, true, none, none⟩

/-- request_rider instance with a non-empty waitlist. -/
def c6SimPop : Sim :=
  ⟨fun _ => anyRider, fun j => if j = 0 then driverX else driverY, [7, 8], [], []⟩

/-- request_rider instance with an empty waitlist and an empty roster. -/
def c6SimA : Sim :=
  ⟨fun _ => anyRider, fun j => if j = 0 then driverX else driverY, [], [], []⟩

/-- request_rider instance with an empty waitlist and driver 0 already
registered. -/
def c6SimB : Sim :=
  ⟨fun _ => anyRider, fun j => if j = 0 then driverX else driverY, [], [0], []⟩

/-- start_drive instance state (the doctest driver, idle, no
destination). -/
def c7Sim : Sim := ⟨fun _ => anyRider, fun _ => king1, [], [], []⟩

/-- end_drive/end_ride instance state: a non-idle driver with a destination
on record. -/
def c7SimD : Sim :=
  ⟨fun _ => anyRider, fun _ => { king1 with is_idle := false, destination := some ⟨9, 8⟩ }, [], [], []⟩

/-- Pickup instance state with an already satisfied rider. -/
def c9Sim : Sim := ⟨fun _ => c5RiderS, fun _ => anyDriver, [], [], []⟩

lemma statusOf_eq (s : Sim) (x : Nat) : statusOf s x = (s.riders x).status := rfl

@[simp] lemma notify_riders (s : Sim) (n : Notif) : (notify s n).riders = s.riders := rfl

@[simp] lemma setDriverDest_riders (s : Sim) (d : Nat) (dest : Option Location) :
    (setDriverDest s d dest).riders = s.riders := rfl

@[simp] lemma setDriverLoc_riders (s : Sim) (d : Nat) (loc : Location) :
    (setDriverLoc s d loc).riders = s.riders := rfl

@[simp] lemma start_drive_riders (s : Sim) (d : Nat) (loc : Location) :
    ((start_drive s d loc).2).riders = s.riders := rfl

@[simp] lemma mkPickup_riders (s : Sim) (t r d : Nat) :
    ((mkPickup s t r d).2).riders = s.riders := rfl

@[simp] lemma mkDropoff_riders (s : Sim) (t r d : Nat) :
    ((mkDropoff s t r d).2).riders = s.riders := rfl

@[simp] lemma cancel_ride_riders (s : Sim) (r : Nat) :
    (cancel_ride s r).riders = s.riders := rfl

@[simp] lemma request_driver_riders (s : Sim) (r : Nat) :
    ((request_driver s r).2).riders = s.riders := by
  unfold request_driver
  split <;> rfl

@[simp] lemma request_rider_riders (s : Sim) (d : Nat) :
    ((request_rider s d).2).riders = s.riders := by
  unfold request_rider
  split
  · split <;> rfl
  · rfl

@[simp] lemma statusOf_setRiderStatus (s : Sim) (r : Nat) (st : Status) (x : Nat) :
    statusOf (setRiderStatus s r st) x = if x = r then st else statusOf s x := by
  unfold statusOf setRiderStatus
  by_cases h : x = r <;> simp [h]

lemma riderRequest_after_statusOf (t r x : Nat) (p : Option Nat × Sim) :
    statusOf (riderRequest_after t r p).2 x = statusOf p.2 x := by
  rcases p with ⟨_ | d, s2⟩ <;> simp [riderRequest_after, statusOf_eq]

/-- Executing a RiderRequest changes no rider's status. -/
lemma riderRequest_do_statusOf (s : Sim) (t r x : Nat) :
    statusOf (riderRequest_do s t r).2 x = statusOf s x := by
  unfold riderRequest_do
  rw [riderRequest_after_statusOf]
  simp [statusOf_eq]

lemma driverRequest_after_statusOf (t d x : Nat) (p : Option Nat × Sim) :
    statusOf (driverRequest_after t d p).2 x = statusOf p.2 x := by
  rcases p with ⟨_ | r, s2⟩ <;> simp [driverRequest_after, statusOf_eq]

/-- Executing a DriverRequest changes no rider's status. -/
lemma driverRequest_do_statusOf (s : Sim) (t d x : Nat) :
    statusOf (driverRequest_do s t d).2 x = statusOf s x := by
  unfold driverRequest_do
  rw [driverRequest_after_statusOf]
  simp [statusOf_eq]

lemma pickup_branch_statusOf (t r d x : Nat) (s2 : Sim) (st : Status) :
    statusOf (pickup_branch t r d s2 st).2 x =
      if st = .waiting ∧ x = r then .satisfied else statusOf s2 x := by
  cases st <;> by_cases hx : x = r <;>
    simp [pickup_branch, hx, statusOf_eq, setRiderStatus]

/-- Executing a Pickup sets its rider's status to SATISFIED exactly when
that rider was WAITING, and changes no other status. -/
lemma pickup_do_statusOf (s : Sim) (t r d x : Nat) :
    statusOf (pickup_do s t r d).2 x =
      if statusOf s r = .waiting ∧ x = r then .satisfied else statusOf s x := by
  unfold pickup_do
  rw [pickup_branch_statusOf]
  rfl

/-- Executing a Dropoff unconditionally sets its rider's status to
SATISFIED, and changes no other status. -/
lemma dropoff_do_statusOf (s : Sim) (t r d x : Nat) :
    statusOf (dropoff_do s t r d).2 x = if x = r then .satisfied else statusOf s x := by
  unfold dropoff_do
  by_cases hx : x = r <;> simp [hx, statusOf_eq, setRiderStatus]

/-- Executing a Cancellation sets its rider's status to CANCELLED exactly
when that rider was not SATISFIED, and changes no other status. -/
lemma cancellation_do_statusOf (s : Sim) (t r x : Nat) :
    statusOf (cancellation_do s t r).2 x =
      if statusOf s r ≠ .satisfied ∧ x = r then .cancelled else statusOf s x := by
  unfold cancellation_do
  by_cases hns : ((s.riders r)).status ≠ .satisfied
  · have hr : statusOf s r ≠ .satisfied := hns
    by_cases hx : x = r <;>
      simp [hns, hr, hx, statusOf_eq, setRiderStatus, cancel_ride]
  · have hr : ¬ statusOf s r ≠ .satisfied := hns
    simp [hns, hr]

@[simp] lemma notify_drivers (s : Sim) (n : Notif) : (notify s n).drivers = s.drivers := rfl

@[simp] lemma notify_roster (s : Sim) (n : Notif) : (notify s n).roster = s.roster := rfl

@[simp] lemma notify_waitlist (s : Sim) (n : Notif) : (notify s n).waitlist = s.waitlist := rfl

@[simp] lemma setRiderStatus_drivers (s : Sim) (r : Nat) (st : Status) :
    (setRiderStatus s r st).drivers = s.drivers := rfl

@[simp] lemma request_driver_drivers (s : Sim) (r : Nat) :
    ((request_driver s r).2).drivers = s.drivers := by
  unfold request_driver
  split <;> rfl

@[simp] lemma request_rider_drivers (s : Sim) (d : Nat) :
    ((request_rider s d).2).drivers = s.drivers := by
  unfold request_rider
  split
  · split <;> rfl
  · rfl

/-- A RiderRequest never hands a Dropoff back to the scheduler. -/
lemma riderRequest_after_no_dropoff (t r : Nat) (p : Option Nat × Sim) (t' r' d' : Nat) :
    Ev.dropoff t' r' d' ∉ ((riderRequest_after t r p).1).getD [] := by
  rcases p with ⟨_ | d, s2⟩ <;> simp [riderRequest_after, mkPickup]

/-- A DriverRequest never hands a Dropoff back to the scheduler. -/
lemma driverRequest_after_no_dropoff (t d : Nat) (p : Option Nat × Sim) (t' r' d' : Nat) :
    Ev.dropoff t' r' d' ∉ ((driverRequest_after t d p).1).getD [] := by
  rcases p with ⟨_ | r, s2⟩ <;> simp [driverRequest_after, mkPickup]

/-- The only Dropoff a Pickup can hand back is for its own rider, and only
out of the WAITING branch. -/
lemma pickup_branch_dropoff (t r d : Nat) (s2 : Sim) (st : Status) (t' r' d' : Nat)
    (h : Ev.dropoff t' r' d' ∈ ((pickup_branch t r d s2 st).1).getD []) :
    st = .waiting ∧ r' = r := by
  cases st <;> simp [pickup_branch, mkDropoff] at h ⊢
  exact h.2.1

/-- Any Dropoff handed back by a scheduler round is for a rider whose
status is SATISFIED in the round's resulting state. -/
lemma succ_dropoff_satisfied (s : Sim) (e : Ev) (t' r' d' : Nat)
    (hmem : Ev.dropoff t' r' d' ∈ succList (doEv s e)) :
    statusOf (doEv s e).2 r' = .satisfied := by
  cases e with
  | riderRequest t r =>
      exact absurd hmem (riderRequest_after_no_dropoff t r _ t' r' d')
  | driverRequest t d =>
      exact absurd hmem (driverRequest_after_no_dropoff t d _ t' r' d')
  | pickup t r d =>
      have hb := pickup_branch_dropoff t r d _ _ t' r' d' hmem
      have hw : statusOf s r = .waiting := hb.1
      simp only [doEv]
      rw [pickup_do_statusOf]
      simp [hw, hb.2]
  | dropoff t r d =>
      simp [doEv, dropoff_do, succList] at hmem
  | cancellation t r =>
      unfold doEv cancellation_do succList at hmem
      by_cases hns : ((s.riders r)).status ≠ .satisfied <;> simp [hns] at hmem

/-- A SATISFIED rider stays SATISFIED across any single event execution. -/
lemma doEv_satisfied_preserved (s : Sim) (e : Ev) (x : Nat)
    (h : statusOf s x = .satisfied) :
    statusOf (doEv s e).2 x = .satisfied := by
  cases e with
  | riderRequest t r => rw [doEv, riderRequest_do_statusOf]; exact h
  | driverRequest t d => rw [doEv, driverRequest_do_statusOf]; exact h
  | pickup t r d =>
      rw [doEv, pickup_do_statusOf]
      split
      · rfl
      · exact h
  | dropoff t r d =>
      rw [doEv, dropoff_do_statusOf]
      split
      · rfl
      · exact h
  | cancellation t r =>
      rw [doEv, cancellation_do_statusOf]
      split
      · rename_i hc
        rw [hc.2] at h
        exact absurd h hc.1
      · exact h

/-- One scheduler round preserves the pending-Dropoff invariant. -/
lemma stepAt_dropInv (c : Config) (hInv : DropInv c) (i : Fin c.queue.length) :
    DropInv (stepAt c i) := by
  intro t r d hmem
  rcases List.mem_append.mp hmem with hold | hsucc
  · have hq : Ev.dropoff t r d ∈ c.queue :=
      (List.eraseIdx_sublist c.queue i.val).subset hold
    exact doEv_satisfied_preserved _ _ _ (hInv _ _ _ hq)
  · exact succ_dropoff_satisfied _ _ _ _ _ hsucc

/-- An initial configuration (requests only) satisfies the pending-Dropoff
invariant vacuously. -/
lemma initOk_dropInv (c : Config) (h : InitOk c) : DropInv c := by
  intro t r d hmem
  have := h _ hmem
  simp [Ev.isRequest] at this

/-- The pending-Dropoff invariant holds in every configuration reachable
from an initial one. -/
lemma reachable_dropInv (c0 c : Config) (h0 : InitOk c0) (h : Reachable c0 c) :
    DropInv c := by
  induction h with
  | refl => exact initOk_dropInv _ h0
  | tail hab hbc ih =>
      rcases hbc with ⟨i, rfl⟩
      exact stepAt_dropInv _ ih i

/-- Under the pending-Dropoff invariant, one scheduler round leaves a
CANCELLED or SATISFIED rider status unchanged. -/
lemma stepAt_terminal_fixed (c : Config) (hInv : DropInv c) (i : Fin c.queue.length) (x : Nat)
    (hterm : statusOf c.sim x = .cancelled ∨ statusOf c.sim x = .satisfied) :
    statusOf (stepAt c i).sim x = statusOf c.sim x := by
  have hget : c.queue.get i ∈ c.queue := List.get_mem c.queue i.1 i.2
  show statusOf (doEv c.sim (c.queue.get i)).2 x = statusOf c.sim x
  cases he : c.queue.get i with
  | riderRequest t r => rw [doEv, riderRequest_do_statusOf]
  | driverRequest t d => rw [doEv, driverRequest_do_statusOf]
  | pickup t r d =>
      rw [doEv, pickup_do_statusOf]
      split
      · rename_i hc
        rw [hc.2] at hterm
        rcases hterm with hh | hh <;> rw [hc.1] at hh <;> cases hh
      · rfl
  | dropoff t r d =>
      rw [doEv, dropoff_do_statusOf]
      split
      · rename_i hx
        have hsat : statusOf c.sim r = .satisfied := hInv t r d (he ▸ hget)
        rw [hx, hsat]
      · rfl
  | cancellation t r =>
      rw [doEv, cancellation_do_statusOf]
      split
      · rename_i hc
        rw [hc.2] at hterm
        rcases hterm with hh | hh
        · rw [hc.2, hh]
        · exact absurd hh hc.1
      · rfl

/-- C2: starting from an initial configuration (a queue of RiderRequest and
DriverRequest events, as produced by create_event_list), along every
sequence of scheduler rounds — each executing one pending RiderRequest,
DriverRequest, Pickup, Dropoff or Cancellation — a rider status that is
CANCELLED or SATISFIED never changes again: status evolution is monotone
under the partial order WAITING below both CANCELLED and SATISFIED.  The
rounds may pop any pending event, which subsumes the scheduler's
earliest-timestamp order. -/
theorem rider_status_monotone (c0 c c' : Config) (h0 : InitOk c0)
    (hreach : Reachable c0 c) (hsteps : Relation.ReflTransGen Step c c') (x : Nat)
    (hterm : statusOf c.sim x = .cancelled ∨ statusOf c.sim x = .satisfied) :
    statusOf c'.sim x = statusOf c.sim x := by
  induction hsteps with
  | refl => rfl
  | tail hab hbc ih =>
      rename_i b _
      rcases hbc with ⟨i, rfl⟩
      have hInvb : DropInv b := reachable_dropInv c0 b h0 (hreach.trans hab)
      rw [stepAt_terminal_fixed b hInvb i x (by rw [ih]; exact hterm)]
      exact ih

/-- Witness for C2 at a concrete one-request run: the satisfied rider at
reference 1 keeps its status across the round that executes the
RiderRequest. -/
theorem rider_status_monotone_witness :
    statusOf (stepAt c2Cfg ⟨0, by decide⟩).sim 1 = statusOf c2Cfg.sim 1 :=
  rider_status_monotone c2Cfg c2Cfg (stepAt c2Cfg ⟨0, by decide⟩)
    (by intro e he; simp [c2Cfg] at he; simp [he, Ev.isRequest])
    Relation.ReflTransGen.refl
    (Relation.ReflTransGen.single ⟨⟨0, by decide⟩, rfl⟩)
    1 (Or.inr rfl)

lemma riderRequest_after_isSome (t r : Nat) (p : Option Nat × Sim) :
    ((riderRequest_after t r p).1).isSome = true := by
  rcases p with ⟨_ | d, s2⟩ <;> simp [riderRequest_after]

lemma driverRequest_after_isSome (t d : Nat) (p : Option Nat × Sim) :
    ((driverRequest_after t d p).1).isSome = true := by
  rcases p with ⟨_ | r, s2⟩ <;> simp [driverRequest_after]

lemma pickup_branch_isSome (t r d : Nat) (s2 : Sim) (st : Status) :
    ((pickup_branch t r d s2 st).1).isSome = true := by
  cases st <;> simp [pickup_branch]

/-- C10: for every state, executing a Cancellation hands back None — the do
method has no return statement — whereas the do operation of each of the
four other event kinds hands back an actual (possibly empty) list of
successor events. -/
theorem cancellation_do_returns_none (s : Sim) (t r d : Nat) :
    (doEv s (.cancellation t r)).1 = none ∧
    ((doEv s (.riderRequest t r)).1).isSome = true ∧
    ((doEv s (.driverRequest t d)).1).isSome = true ∧
    ((doEv s (.pickup t r d)).1).isSome = true ∧
    ((doEv s (.dropoff t r d)).1).isSome = true := by
  refine ⟨?_, ?_, ?_, ?_, ?_⟩
  · unfold doEv cancellation_do
    by_cases hns : ((s.riders r)).status ≠ .satisfied <;> simp [hns]
  · exact riderRequest_after_isSome t r _
  · exact driverRequest_after_isSome t d _
  · exact pickup_branch_isSome t r d _ _
  · rfl

/-- C9: executing a Pickup whose rider is already SATISFIED emits the
rider-pickup and driver-pickup notifications, hands back the empty
successor list, and otherwise changes nothing: rider statuses, driver
records, waitlist and roster are all exactly as before. -/
theorem pickup_satisfied_noop (s : Sim) (t r d : Nat) (h : statusOf s r = .satisfied) :
    pickup_do s t r d =
      (some [],
       { s with monitor := s.monitor
          ++ [⟨t, .rider, .pickup, (s.riders r).id, (s.riders r).origin⟩,
              ⟨t, .driver, .pickup, (s.drivers d).identifier, (s.drivers d).location⟩] }) := by
  have hs : ((s.riders r)).status = .satisfied := h
  unfold pickup_do
  simp only [notify_riders, notify_drivers]
  rw [hs]
  simp [pickup_branch, notify, List.append_assoc]

/-- Witness for C9 at a concrete satisfied rider. -/
theorem pickup_satisfied_noop_witness :
    pickup_do c9Sim 3 0 0 =
      (some [],
       { c9Sim with monitor := c9Sim.monitor
          ++ [⟨3, .rider, .pickup, (c9Sim.riders 0).id, (c9Sim.riders 0).origin⟩,
              ⟨3, .driver, .pickup, (c9Sim.drivers 0).identifier, (c9Sim.drivers 0).location⟩] }) :=
  pickup_satisfied_noop c9Sim 3 0 0 rfl

/-- C3: executing a Pickup at timestamp t.  If the rider is CANCELLED, the
only successor is a DriverRequest for the same driver at t and the driver's
destination is cleared (no Dropoff is produced).  If the rider is WAITING,
the driver's destination becomes the rider's destination, the rider is
marked SATISFIED, and the only successor is a Dropoff at t plus the
driver's travel time to the rider's origin plus the floor of the
origin-to-destination Manhattan distance divided by the driver's speed. -/
theorem pickup_spec (s : Sim) (t r d : Nat) :
    (statusOf s r = .cancelled →
      (pickup_do s t r d).1 = some [.driverRequest t d] ∧
      (((pickup_do s t r d).2).drivers d).destination = none) ∧
    (statusOf s r = .waiting →
      (pickup_do s t r d).1 =
        some [.dropoff (t + get_travel_time (s.drivers d) ((s.riders r).origin)
                  + manhattan_distance ((s.riders r).origin) ((s.riders r).destination)
                      / (s.drivers d).speed) r d] ∧
      statusOf (pickup_do s t r d).2 r = .satisfied ∧
      (((pickup_do s t r d).2).drivers d).destination = some ((s.riders r).destination)) := by
  constructor
  · intro h
    have hs : ((s.riders r)).status = .cancelled := h
    unfold pickup_do
    simp only [notify_riders, notify_drivers]
    rw [hs]
    simp [pickup_branch, setDriverDest]
  · intro h
    have hs : ((s.riders r)).status = .waiting := h
    unfold pickup_do
    simp only [notify_riders, notify_drivers]
    rw [hs]
    simp [pickup_branch, mkDropoff, start_drive, setDriverDest, setDriverLoc,
          setRiderStatus, statusOf_eq, get_travel_time, notify]

/-- Witness for C3 at the spec's scenario values: a no-show Pickup and a
normal Pickup whose Dropoff lands at t = 4 + 0 + 2 = 6. -/
theorem pickup_spec_witness :
    (pickup_do c3SimC 4 0 0).1 = some [.driverRequest 4 0] ∧
    (pickup_do c3SimW 4 0 0).1 = some [.dropoff 6 0 0] :=
  ⟨((pickup_spec c3SimC 4 0 0).1 rfl).1, ((pickup_spec c3SimW 4 0 0).2 rfl).1⟩

lemma request_driver_fst_notify (s : Sim) (n : Notif) (r : Nat) :
    (request_driver (notify s n) r).1 = (request_driver s r).1 := by
  rcases h : s.roster with _ | ⟨a, l⟩
  · simp [request_driver, h]
  · simp only [request_driver, notify_roster, h]
    rfl

lemma riderRequest_after_fst_none (t r : Nat) (p : Option Nat × Sim) (h : p.1 = none) :
    (riderRequest_after t r p).1 =
      some [.cancellation (t + ((p.2).riders r).patience) r] := by
  rcases p with ⟨od, s2⟩
  simp only at h
  subst h
  simp [riderRequest_after]

lemma riderRequest_after_fst_some (t r d : Nat) (p : Option Nat × Sim) (h : p.1 = some d) :
    (riderRequest_after t r p).1 =
      some [.pickup (t + get_travel_time ((p.2).drivers d) (((p.2).riders r).origin)) r d,
            .cancellation (t + ((p.2).riders r).patience) r] := by
  rcases p with ⟨od, s2⟩
  simp only at h
  subst h
  simp [riderRequest_after, start_drive, mkPickup]

/-- C4: executing a RiderRequest at timestamp t always produces a
Cancellation for the rider at t + patience; when the dispatcher matches a
driver it additionally produces exactly one Pickup for that rider and
driver at t plus the driver's travel time to the rider's origin, and
nothing else. -/
theorem riderRequest_spec (s : Sim) (t r : Nat) :
    ((request_driver s r).1 = none →
      (riderRequest_do s t r).1 = some [.cancellation (t + (s.riders r).patience) r]) ∧
    (∀ d, (request_driver s r).1 = some d →
      (riderRequest_do s t r).1 =
        some [.pickup (t + get_travel_time (s.drivers d) ((s.riders r).origin)) r d,
              .cancellation (t + (s.riders r).patience) r]) := by
  constructor
  · intro h
    unfold riderRequest_do
    rw [riderRequest_after_fst_none t r _ (by rw [request_driver_fst_notify]; exact h)]
    simp
  · intro d hd
    unfold riderRequest_do
    rw [riderRequest_after_fst_some t r d _ (by rw [request_driver_fst_notify]; exact hd)]
    simp

/-- Witness for C4 at the spec's scenario values: no driver gives exactly
one Cancellation at t = 5; one driver at distance 3 gives a Pickup at
t = 1 + 3 = 4 plus the Cancellation at t = 6. -/
theorem riderRequest_spec_witness :
    (riderRequest_do c4SimA 0 0).1 = some [.cancellation 5 0] ∧
    (riderRequest_do c4SimB 1 0).1 = some [.pickup 4 0 0, .cancellation 6 0] :=
  ⟨(riderRequest_spec c4SimA 0 0).1 rfl, (riderRequest_spec c4SimB 1 0).2 0 rfl⟩

lemma cancel_ride_loop_of_not_mem (r : Nat) :
    ∀ n wl i, wl.length - i ≤ n → r ∉ wl → cancel_ride_loop wl r i = wl := by
  intro n
  induction n with
  | zero =>
      intro wl i hle hnm
      unfold cancel_ride_loop
      rw [dif_neg (by omega)]
  | succ n ih =>
      intro wl i hle hnm
      unfold cancel_ride_loop
      split
      · rename_i hlt
        have hne : ¬ (wl.get ⟨i, hlt⟩ = r) := fun hEq => hnm (hEq ▸ List.get_mem wl i hlt)
        rw [if_neg hne]
        exact ih wl (i + 1) (by omega) hnm
      · rfl

lemma cancel_ride_loop_erase (r : Nat) :
    ∀ n wl i, wl.length - i ≤ n → wl.count r ≤ 1 →
      (∀ j (hj : j < wl.length), j < i → wl.get ⟨j, hj⟩ ≠ r) →
      cancel_ride_loop wl r i = wl.erase r := by
  intro n
  induction n with
  | zero =>
      intro wl i hle hcount hpre
      have hnm : r ∉ wl := by
        intro hmem
        rcases List.mem_iff_get.mp hmem with ⟨⟨j, hj⟩, hget⟩
        exact hpre j hj (by omega) hget
      unfold cancel_ride_loop
      rw [dif_neg (by omega), List.erase_of_not_mem hnm]
  | succ n ih =>
      intro wl i hle hcount hpre
      unfold cancel_ride_loop
      split
      · rename_i hlt
        by_cases hEq : wl.get ⟨i, hlt⟩ = r
        · rw [if_pos hEq]
          have hmem : r ∈ wl := hEq ▸ List.get_mem wl i hlt
          have hpos : 0 < wl.count r := List.count_pos_iff.mpr hmem
          have hce : (wl.erase r).count r = wl.count r - 1 := List.count_erase_self r wl
          have hnot : r ∉ wl.erase r := by
            intro hmem2
            have := List.count_pos_iff.mpr hmem2
            omega
          have hlen : (wl.erase r).length ≤ wl.length := wl.length_erase_le r
          exact cancel_ride_loop_of_not_mem r ((wl.erase r).length) (wl.erase r) (i + 1)
            (by omega) hnot
        · rw [if_neg hEq]
          apply ih wl (i + 1) (by omega) hcount
          intro j hj hji
          by_cases hj_i : j = i
          · subst hj_i
            exact hEq
          · exact hpre j hj (by omega)
      · rename_i hnlt
        have hnm : r ∉ wl := by
          intro hmem
          rcases List.mem_iff_get.mp hmem with ⟨⟨j, hj⟩, hget⟩
          exact hpre j hj (by omega) hget
        rw [List.erase_of_not_mem hnm]

/-- Dispatcher.cancel_ride removes the first (and under the
no-duplicates invariant, only) occurrence of the rider from the waitlist,
and is a no-op when the rider is not on it. -/
lemma cancel_ride_loop_eq_erase (wl : List Nat) (r : Nat) (h : wl.count r ≤ 1) :
    cancel_ride_loop wl r 0 = wl.erase r :=
  cancel_ride_loop_erase r wl.length wl 0 (by omega) h
    (fun j hj hji => absurd hji (Nat.not_lt_zero j))

@[simp] lemma setRiderStatus_waitlist (s : Sim) (r : Nat) (st : Status) :
    (setRiderStatus s r st).waitlist = s.waitlist := rfl

@[simp] lemma setRiderStatus_monitor (s : Sim) (r : Nat) (st : Status) :
    (setRiderStatus s r st).monitor = s.monitor := rfl

/-- Dispatcher.cancel_ride removes the first (and under the no-duplicates
invariant, only) occurrence of the rider from the waitlist, and is a no-op
when the rider is not on it. -/
lemma cancel_ride_eq_erase (s : Sim) (r : Nat) (h : s.waitlist.count r ≤ 1) :
    cancel_ride s r = { s with waitlist := s.waitlist.erase r } := by
  unfold cancel_ride
  rw [cancel_ride_loop_eq_erase s.waitlist r h]

/-- C5: executing a Cancellation on an already SATISFIED rider changes
nothing at all (same state, no notification); otherwise it sets the rider's
status to CANCELLED, appends the rider-cancel notification, and removes the
rider from the waitlist when present (a no-op removal otherwise), touching
nothing else.  The rider appears on the waitlist at most once (dispatcher
invariant), expressed as the count hypothesis. -/
theorem cancellation_spec (s : Sim) (t r : Nat) :
    (statusOf s r = .satisfied → cancellation_do s t r = (none, s)) ∧
    (statusOf s r ≠ .satisfied → s.waitlist.count r ≤ 1 →
      cancellation_do s t r =
        (none,
         { s with
            riders := fun j => if j = r then { s.riders j with status := .cancelled }
                               else s.riders j,
            monitor := s.monitor
              ++ [⟨t, .rider, .cancel, (s.riders r).id, (s.riders r).origin⟩],
            waitlist := s.waitlist.erase r })) := by
  constructor
  · intro h
    have hs : ((s.riders r)).status = .satisfied := h
    unfold cancellation_do
    rw [if_neg (not_not_intro hs)]
  · intro hne hcount
    have hs : ((s.riders r)).status ≠ .satisfied := hne
    unfold cancellation_do
    rw [if_pos hs]
    simp only [cancel_ride, notify_waitlist, setRiderStatus_waitlist,
               cancel_ride_loop_eq_erase s.waitlist r hcount]
    simp [notify, setRiderStatus]

/-- Witness for C5: a satisfied rider is untouched; a waiting waitlisted
rider is cancelled, logged and removed from the waitlist. -/
theorem cancellation_spec_witness :
    cancellation_do c5SimS 9 0 = (none, c5SimS) ∧
    cancellation_do c5SimW 9 0 =
      (none,
       { c5SimW with
          riders := fun j => if j = 0 then { c5SimW.riders j with status := .cancelled }
                             else c5SimW.riders j,
          monitor := c5SimW.monitor
            ++ [⟨9, .rider, .cancel, (c5SimW.riders 0).id, (c5SimW.riders 0).origin⟩],
          waitlist := c5SimW.waitlist.erase 0 }) :=
  ⟨(cancellation_spec c5SimS 9 0).1 rfl,
   (cancellation_spec c5SimW 9 0).2 (by decide) (by decide)⟩

/-- C6: request_rider with a non-empty waitlist pops and returns the front
(oldest) rider regardless of distance; with an empty waitlist it returns
none, registering the driver on the idle roster only when no driver of
equal identifier is already registered — re-registering leaves the roster
unchanged. -/
theorem request_rider_spec (s : Sim) (d : Nat) :
    (∀ r rest, s.waitlist = r :: rest →
      request_rider s d = (some r, { s with waitlist := rest })) ∧
    (s.waitlist = [] →
      ((s.roster.any (fun j => (s.drivers j).identifier == (s.drivers d).identifier)) = true →
        request_rider s d = (none, s)) ∧
      ((s.roster.any (fun j => (s.drivers j).identifier == (s.drivers d).identifier)) = false →
        request_rider s d = (none, { s with roster := s.roster ++ [d] }))) := by
  constructor
  · intro r rest h
    simp [request_rider, h]
  · intro h
    constructor <;> intro ha <;> simp [request_rider, h, ha]

/-- Witness for C6: the FIFO pop returns the first-queued rider 7; with an
empty waitlist a registered driver is not re-added while a new one is. -/
theorem request_rider_spec_witness :
    request_rider c6SimPop 0 = (some 7, { c6SimPop with waitlist := [8] }) ∧
    request_rider c6SimB 0 = (none, c6SimB) ∧
    request_rider c6SimA 0 = (none, { c6SimA with roster := [0] }) :=
  ⟨(request_rider_spec c6SimPop 0).1 7 [8] rfl,
   ((request_rider_spec c6SimB 0).2 rfl).1 (by decide),
   ((request_rider_spec c6SimA 0).2 rfl).2 (by decide)⟩

/-- C7 evaluation: on the doctest driver (king1 at (1, 1), speed 1, idle,
no destination), start_drive to (9, 8) returns 15 but leaves is_idle true
and destination unset — the method assigns a fresh attribute idle instead
of is_idle and never writes destination; and end_drive / end_ride set
is_idle true without clearing a recorded destination. -/
theorem start_drive_typo_behaviour :
    (start_drive c7Sim 0 ⟨9, 8⟩).1 = 15 ∧
    (((start_drive c7Sim 0 ⟨9, 8⟩).2).drivers 0).is_idle = true ∧
    (((start_drive c7Sim 0 ⟨9, 8⟩).2).drivers 0).destination = none ∧
    (((start_drive c7Sim 0 ⟨9, 8⟩).2).drivers 0).idle = some false ∧
    ((end_drive c7SimD 0).drivers 0).is_idle = true ∧
    ((end_drive c7SimD 0).drivers 0).destination = some ⟨9, 8⟩ ∧
    ((end_ride c7SimD 0).drivers 0).is_idle = true ∧
    ((end_ride c7SimD 0).drivers 0).destination = some ⟨9, 8⟩ := by
  decide

lemma nearest_helper (dd q r v : Int) (hd : 0 < dd) (hr0 : 0 ≤ r) (hrd : r < dd)
    (hv : (v = q ∧ 2 * r ≤ dd) ∨ (v = q + 1 ∧ dd ≤ 2 * r)) (k : Int) :
    |dd * q + r - dd * v| ≤ |dd * q + r - dd * k| := by
  have hsplit : dd * (q + 1) = dd * q + dd := by ring
  rcases le_or_lt k q with hk | hk
  · have hprod : dd * k ≤ dd * q := mul_le_mul_of_nonneg_left hk (le_of_lt hd)
    rw [abs_of_nonneg (show (0 : Int) ≤ dd * q + r - dd * k by omega)]
    rcases hv with ⟨hveq, hb⟩ | ⟨hveq, hb⟩ <;> rw [hveq]
    · rw [show dd * q + r - dd * q = r by ring, abs_of_nonneg hr0]
      omega
    · rw [show dd * q + r - dd * (q + 1) = r - dd by ring, abs_of_nonpos (by omega)]
      omega
  · have hprod : dd * (q + 1) ≤ dd * k :=
      mul_le_mul_of_nonneg_left (by omega) (le_of_lt hd)
    rw [abs_of_nonpos (show dd * q + r - dd * k ≤ 0 by omega)]
    rcases hv with ⟨hveq, hb⟩ | ⟨hveq, hb⟩ <;> rw [hveq]
    · rw [show dd * q + r - dd * q = r by ring, abs_of_nonneg hr0]
      omega
    · rw [show dd * q + r - dd * (q + 1) = r - dd by ring, abs_of_nonpos (by omega)]
      omega

lemma pyRound_choice (n d : Nat) :
    (pyRound n d = n / d ∧ 2 * (n % d) ≤ d) ∨
    (pyRound n d = n / d + 1 ∧ d ≤ 2 * (n % d)) := by
  unfold pyRound
  split
  · exact Or.inl ⟨rfl, by omega⟩
  · split
    · exact Or.inr ⟨rfl, by omega⟩
    · split
      · exact Or.inl ⟨rfl, by omega⟩
      · exact Or.inr ⟨rfl, by omega⟩

/-- pyRound n d is a nearest integer to the ratio n / d: scaled by d, its
distance to n is no larger than that of any other integer. -/
lemma pyRound_nearest (n d : Nat) (hd : 0 < d) (k : Int) :
    |(n : Int) - (d : Int) * (pyRound n d : Int)| ≤ |(n : Int) - (d : Int) * k| := by
  have hmod : d * (n / d) + n % d = n := Nat.div_add_mod n d
  have hn : (n : Int) = (d : Int) * ((n / d : Nat) : Int) + ((n % d : Nat) : Int) := by
    exact_mod_cast hmod.symm
  rw [hn]
  apply nearest_helper
  · exact_mod_cast hd
  · positivity
  · exact_mod_cast Nat.mod_lt _ hd
  · rcases pyRound_choice n d with ⟨hv, hb⟩ | ⟨hv, hb⟩
    · exact Or.inl ⟨by exact_mod_cast hv, by exact_mod_cast hb⟩
    · exact Or.inr ⟨by push_cast [hv]; ring, by exact_mod_cast hb⟩

/-- C8: for a positive speed, get_travel_time equals the round of the
Manhattan distance from the driver's location to the destination divided by
the speed (Python round, half to even), and that value is a nearest integer
to the exact ratio: no integer k brings speed * k closer to the distance. -/
theorem get_travel_time_spec (dr : Driver) (destination : Location) (h : 0 < dr.speed) :
    get_travel_time dr destination
        = pyRound (manhattan_distance dr.location destination) dr.speed ∧
    ∀ k : Int,
      |((manhattan_distance dr.location destination : Nat) : Int)
          - (dr.speed : Int) * ((get_travel_time dr destination : Nat) : Int)|
        ≤ |((manhattan_distance dr.location destination : Nat) : Int) - (dr.speed : Int) * k| :=
  ⟨rfl, fun k => pyRound_nearest _ _ h k⟩

/-- Witness for C8 at the doctest values: king1 at (1, 1) with speed 1 to
destination (6, 7). -/
theorem get_travel_time_spec_witness :
    get_travel_time king1 ⟨6, 7⟩ = pyRound (manhattan_distance king1.location ⟨6, 7⟩) king1.speed :=
  (get_travel_time_spec king1 ⟨6, 7⟩ (by decide)).1

lemma foldl_min_le_init (t : List Nat) (a : Nat) : t.foldl min a ≤ a := by
  induction t generalizing a with
  | nil => simp
  | cons b tb ih => exact le_trans (ih (min a b)) (min_le_left a b)

lemma foldl_min_le_mem : ∀ (t : List Nat) (a x : Nat), x ∈ t → t.foldl min a ≤ x := by
  intro t
  induction t with
  | nil => intro a x h; cases h
  | cons b tb ih =>
      intro a x h
      rcases List.mem_cons.mp h with rfl | hx
      · exact le_trans (foldl_min_le_init tb (min a x)) (min_le_right a x)
      · exact ih (min a b) x hx

/-- Python min of a non-empty list bounds every member from below. -/
lemma listMin_le (l : List Nat) (x : Nat) (h : x ∈ l) : listMin l ≤ x := by
  rcases l with _ | ⟨a, t⟩
  · cases h
  · rcases List.mem_cons.mp h with rfl | hx
    · exact foldl_min_le_init t x
    · exact foldl_min_le_mem t a x hx

lemma foldl_min_mem : ∀ (t : List Nat) (a : Nat), t.foldl min a = a ∨ t.foldl min a ∈ t := by
  intro t
  induction t with
  | nil => intro a; exact Or.inl rfl
  | cons b tb ih =>
      intro a
      rcases ih (min a b) with he | hm
      · rcases min_choice a b with hab | hab
        · exact Or.inl (by rw [show (b :: tb).foldl min a = tb.foldl min (min a b) from rfl, he, hab])
        · refine Or.inr ?_
          rw [show (b :: tb).foldl min a = tb.foldl min (min a b) from rfl, he, hab]
          exact List.mem_cons_self b tb
      · exact Or.inr (List.mem_cons_of_mem b hm)

/-- Python min of a non-empty list is one of its members. -/
lemma listMin_mem (l : List Nat) (h : l ≠ []) : listMin l ∈ l := by
  rcases l with _ | ⟨a, t⟩
  · exact absurd rfl h
  · rcases foldl_min_mem t a with he | hm
    · rw [show listMin (a :: t) = t.foldl min a from rfl, he]
      exact List.mem_cons_self a t
    · exact List.mem_cons_of_mem a hm

lemma dictSet_keys (m : List (Nat × Nat)) (k v : Nat) :
    (dictSet m k v).map Prod.fst =
      if k ∈ m.map Prod.fst then m.map Prod.fst else m.map Prod.fst ++ [k] := by
  induction m with
  | nil => simp [dictSet]
  | cons p rest ih =>
      rcases p with ⟨k1, v1⟩
      by_cases hk : k1 = k
      · subst hk
        simp [dictSet]
      · by_cases hmem : k ∈ rest.map Prod.fst <;>
          simp [dictSet, if_neg hk, ih, hmem, Ne.symm hk]

lemma dictGet_dictSet_self (m : List (Nat × Nat)) (k v : Nat) :
    dictGet (dictSet m k v) k = v := by
  induction m with
  | nil => simp [dictSet, dictGet, List.find?]
  | cons p rest ih =>
      rcases p with ⟨k1, v1⟩
      by_cases hk : k1 = k
      · subst hk
        simp [dictSet, dictGet, List.find?]
      · have hb : ((k1 : Nat) == k) = false := by simpa using hk
        simpa [dictSet, if_neg hk, dictGet, List.find?, hb] using ih

lemma dictGet_dictSet_ne (m : List (Nat × Nat)) (k v k' : Nat) (h : k' ≠ k) :
    dictGet (dictSet m k v) k' = dictGet m k' := by
  have hb : ((k : Nat) == k') = false := by simpa using Ne.symm h
  induction m with
  | nil => simp [dictSet, dictGet, List.find?, hb]
  | cons p rest ih =>
      rcases p with ⟨k1, v1⟩
      by_cases hk : k1 = k
      · subst hk
        simp [dictSet, dictGet, List.find?, hb]
      · by_cases hk1 : k1 = k'
        · subst hk1
          simp [dictSet, if_neg hk, dictGet, List.find?]
        · have hb1 : ((k1 : Nat) == k') = false := by simpa using hk1
          simpa [dictSet, if_neg hk, dictGet, List.find?, hb1] using ih

lemma buildDict_append (s : Sim) (r : Nat) (l : List Nat) (x : Nat) :
    buildDict s r (l ++ [x]) = dictSet (buildDict s r l) (distToOrigin s r x) x := by
  simp [buildDict, List.foldl_append]

/-- The keys of the request_driver dict are exactly the distances of the
processed drivers. -/
lemma buildDict_keys_mem (s : Sim) (r : Nat) :
    ∀ (l : List Nat) (k : Nat),
      (k ∈ (buildDict s r l).map Prod.fst ↔ k ∈ l.map (distToOrigin s r)) := by
  intro l
  induction l using List.reverseRecOn with
  | nil => intro k; simp [buildDict]
  | append_singleton l x ih =>
      intro k
      rw [buildDict_append, dictSet_keys]
      by_cases hmem : distToOrigin s r x ∈ (buildDict s r l).map Prod.fst
      · rw [if_pos hmem]
        simp only [List.map_append, List.map_cons, List.map_nil, List.mem_append,
          List.mem_cons, List.not_mem_nil, or_false]
        constructor
        · intro hkk
          exact Or.inl ((ih k).mp hkk)
        · intro hkk
          rcases hkk with hkk | hkk
          · exact (ih k).mpr hkk
          · subst hkk
            exact hmem
      · rw [if_neg hmem]
        simp only [List.map_append, List.map_cons, List.map_nil, List.mem_append,
          List.mem_cons, List.not_mem_nil, or_false]
        constructor
        · intro hkk
          rcases hkk with hkk | hkk
          · exact Or.inl ((ih k).mp hkk)
          · exact Or.inr hkk
        · intro hkk
          rcases hkk with hkk | hkk
          · exact Or.inl ((ih k).mpr hkk)
          · exact Or.inr hkk

/-- The request_driver dict maps each distance key to the LAST driver on the
roster having that distance (later insertions overwrite earlier ones). -/
lemma buildDict_get_last (s : Sim) (r : Nat) :
    ∀ (l : List Nat) (k : Nat), k ∈ l.map (distToOrigin s r) →
      (l.filter (fun j => distToOrigin s r j == k)).getLast?
        = some (dictGet (buildDict s r l) k) := by
  intro l
  induction l using List.reverseRecOn with
  | nil => intro k hk; simp at hk
  | append_singleton l x ih =>
      intro k hk
      by_cases hkx : distToOrigin s r x = k
      · subst hkx
        rw [buildDict_append, dictGet_dictSet_self, List.filter_append]
        simp
      · have hk' : k ∈ l.map (distToOrigin s r) := by
          simp only [List.map_append, List.map_cons, List.map_nil, List.mem_append,
            List.mem_cons, List.not_mem_nil, or_false] at hk
          rcases hk with hk | hk
          · exact hk
          · exact absurd hk.symm hkx
        have hbx : (distToOrigin s r x == k) = false := by simpa using hkx
        rw [buildDict_append, dictGet_dictSet_ne _ _ _ _ (Ne.symm hkx), List.filter_append,
          show List.filter (fun j => distToOrigin s r j == k) [x] = [] by simp [hbx],
          List.append_nil]
        exact ih k hk'

/-- After Python list.remove under driver (identifier) equality, no driver
with the removed identifier remains, provided roster identifiers are
unique. -/
lemma removeFirst_no_match (F : Nat → String) :
    ∀ (l : List Nat) (c : Nat), (l.map F).Nodup → c ∈ l →
      ∀ j ∈ removeFirst (fun x => F x == F c) l, F j ≠ F c := by
  intro l
  induction l with
  | nil => intro c _ hc; cases hc
  | cons a tl ih =>
      intro c hnd hc
      rw [List.map_cons, List.nodup_cons] at hnd
      obtain ⟨hna, hndtl⟩ := hnd
      by_cases hFa : F a = F c
      · intro j hj
        have hj' : j ∈ tl := by simpa [removeFirst, hFa] using hj
        intro hFj
        have : F a ∈ tl.map F := by
          rw [hFa, ← hFj]
          exact List.mem_map_of_mem F hj'
        exact hna this
      · intro j hj
        have hsplit : removeFirst (fun x => F x == F c) (a :: tl)
            = a :: removeFirst (fun x => F x == F c) tl := by
          simp [removeFirst, hFa]
        rw [hsplit] at hj
        have hc' : c ∈ tl := by
          rcases List.mem_cons.mp hc with rfl | h
          · exact absurd rfl hFa
          · exact h
        rcases List.mem_cons.mp hj with rfl | hj'
        · exact hFa
        · exact ih c hndtl hc' j hj'

lemma request_driver_fst (s : Sim) (r a : Nat) (l0 : List Nat) (hr : s.roster = a :: l0) :
    (request_driver s r).1
      = some (dictGet (buildDict s r (a :: l0)) (dictMin (buildDict s r (a :: l0)))) := by
  simp [request_driver, hr]

lemma request_driver_roster (s : Sim) (r a : Nat) (l0 : List Nat) (hr : s.roster = a :: l0) :
    (request_driver s r).2.roster =
      removeFirst (fun j => (s.drivers j).identifier ==
          (s.drivers (dictGet (buildDict s r (a :: l0))
            (dictMin (buildDict s r (a :: l0))))).identifier)
        (a :: l0) := by
  simp [request_driver, hr]

/-- C1 (amended): with a non-empty roster of drivers with pairwise distinct
identifiers, request_driver returns a driver whose Manhattan distance to the
rider's origin is minimal over the roster; among the drivers at minimal
distance, the LAST one in roster order is returned (the distance-keyed dict
lets later drivers overwrite earlier ones); and afterwards no driver with
the returned driver's identifier remains on the roster. -/
theorem request_driver_spec (s : Sim) (r : Nat) (hne : s.roster ≠ [])
    (hid : (s.roster.map (fun j => (s.drivers j).identifier)).Nodup) :
    ∃ c, (request_driver s r).1 = some c ∧ c ∈ s.roster ∧
      (∀ j ∈ s.roster, distToOrigin s r c ≤ distToOrigin s r j) ∧
      (s.roster.filter (fun j => distToOrigin s r j == distToOrigin s r c)).getLast? = some c ∧
      (∀ j ∈ (request_driver s r).2.roster,
        (s.drivers j).identifier ≠ (s.drivers c).identifier) := by
  rcases hr : s.roster with _ | ⟨a, l0⟩
  · exact absurd hr hne
  · have hlne : a :: l0 ≠ [] := by simp
    have hkeysne : (buildDict s r (a :: l0)).map Prod.fst ≠ [] := by
      intro hempty
      have : distToOrigin s r a ∈ (buildDict s r (a :: l0)).map Prod.fst :=
        (buildDict_keys_mem s r (a :: l0) (distToOrigin s r a)).mpr (by simp)
      rw [hempty] at this
      cases this
    have hmnkeys : dictMin (buildDict s r (a :: l0)) ∈ (buildDict s r (a :: l0)).map Prod.fst :=
      listMin_mem _ hkeysne
    have hmndist : dictMin (buildDict s r (a :: l0)) ∈ (a :: l0).map (distToOrigin s r) :=
      (buildDict_keys_mem s r (a :: l0) _).mp hmnkeys
    have hlast := buildDict_get_last s r (a :: l0) _ hmndist
    have hcmemfil : dictGet (buildDict s r (a :: l0)) (dictMin (buildDict s r (a :: l0)))
        ∈ (a :: l0).filter (fun j => distToOrigin s r j == dictMin (buildDict s r (a :: l0))) := by
      obtain ⟨hfne, heq⟩ := List.mem_getLast?_eq_getLast (Option.mem_def.mpr hlast)
      rw [heq]
      exact List.getLast_mem hfne
    have hcmem : dictGet (buildDict s r (a :: l0)) (dictMin (buildDict s r (a :: l0))) ∈ a :: l0 :=
      List.mem_of_mem_filter hcmemfil
    have hcdist : distToOrigin s r
        (dictGet (buildDict s r (a :: l0)) (dictMin (buildDict s r (a :: l0))))
        = dictMin (buildDict s r (a :: l0)) := by
      have := List.of_mem_filter hcmemfil
      simpa using this
    refine ⟨dictGet (buildDict s r (a :: l0)) (dictMin (buildDict s r (a :: l0))),
      request_driver_fst s r a l0 hr, ?_, ?_, ?_, ?_⟩
    · exact hcmem
    · intro j hj
      rw [hcdist]
      exact listMin_le _ _ ((buildDict_keys_mem s r (a :: l0) _).mpr
        (List.mem_map_of_mem _ hj))
    · rw [hcdist]
      exact hlast
    · rw [request_driver_roster s r a l0 hr]
      intro j hj
      rw [hr] at hid
      exact removeFirst_no_match (fun j => (s.drivers j).identifier) (a :: l0) _ hid hcmem j hj

/-- C1 counterexample: two drivers A (first inserted) and B (second
inserted) at equal Manhattan distance 1 from the rider's origin;
request_driver returns driver reference 1 (B), not the first-inserted
driver reference 0 (A), so ties go to the LAST driver in roster order. -/
theorem request_driver_tie_counterexample :
    distToOrigin c1Sim 0 0 = distToOrigin c1Sim 0 1 ∧
    (request_driver c1Sim 0).1 = some 1 ∧
    (request_driver c1Sim 0).1 ≠ some 0 := by
  refine ⟨rfl, rfl, ?_⟩
  decide

/-- Witness for C1 on the two-driver tie roster. -/
theorem request_driver_spec_witness :
    ∃ c, (request_driver c1Sim 0).1 = some c ∧ c ∈ c1Sim.roster ∧
      (∀ j ∈ c1Sim.roster, distToOrigin c1Sim 0 c ≤ distToOrigin c1Sim 0 j) ∧
      (c1Sim.roster.filter
        (fun j => distToOrigin c1Sim 0 j == distToOrigin c1Sim 0 c)).getLast? = some c ∧
      (∀ j ∈ (request_driver c1Sim 0).2.roster,
        (c1Sim.drivers j).identifier ≠ (c1Sim.drivers c).identifier) :=
  request_driver_spec c1Sim 0 (by decide) (by decide)
